import Mathlib

/-!
Verification development for the llms.txt checker (src/llms_checker.py).

Strings are modelled as lists of characters (`Str`).  The Python string
operations used by the source (str.strip, str.rstrip, str.startswith) and the
parts of CPython's urllib.parse that the source calls (urlparse, urlunparse
on the ASCII inputs this tool handles) are embedded as executable Lean
functions.  The network layer is modelled by an `HttpOutcome` oracle that
says how `urlopen` behaves for the single request a check performs; Python
exceptions that escape a function are modelled with `Except`.
-/

namespace LlmsChecker

/-- Characters of a Python string, in order. -/
abbrev Str := List Char

/-- Python ASCII whitespace as recognised by str.strip() (the tool only
handles ASCII input; the Unicode cases of str.strip never arise here). -/
def pyWS (c : Char) : Bool :=
  c == ' ' || c == '\t' || c == '\n' || c == '\r' || c == '\u000b' || c == '\u000c'

/-- Python str.strip() with no argument: drop whitespace from both ends. -/
def pyStrip (s : Str) : Str :=
  ((s.dropWhile pyWS).reverse.dropWhile pyWS).reverse

/-- Python s.rstrip("/"): drop every trailing '/' character. -/
def pyRstripSlash (s : Str) : Str :=
  (s.reverse.dropWhile (fun c => c == '/')).reverse

/-- Python domain.startswith(("http://", "https://")). -/
def startsWithHttp (s : Str) : Bool :=
  "http://".data.isPrefixOf s || "https://".data.isPrefixOf s

/-- normalize_domain from src/llms_checker.py lines 20-34: strip the input;
empty input maps to the empty string; keep an existing http/https scheme or
otherwise add "https://"; rstrip trailing '/' characters. -/
def normalize_domain (domain : Str) : Str :=
  let d := pyStrip domain
  if d.isEmpty then []
  else if startsWithHttp d then pyRstripSlash d
  else "https://".data ++ pyRstripSlash d

/-- Characters CPython allows after the first character of a URL scheme. -/
def schemeChar (c : Char) : Bool :=
  c.isAlphanum || c == '+' || c == '-' || c == '.'

/-- CPython urlsplit's test that the text before the first ':' is a scheme:
nonempty, starts with an ASCII letter, rest drawn from scheme characters. -/
def validScheme (s : Str) : Bool :=
  match s with
  | [] => false
  | c :: cs => c.isAlpha && cs.all schemeChar

/-- Split a list at the first occurrence of a character: returns the part
before it and, when the character occurs, the part after it. -/
def breakAt (c : Char) : Str → Str × Option Str
  | [] => ([], none)
  | x :: xs =>
    if x = c then ([], some xs)
    else
      let r := breakAt c xs
      (x :: r.1, r.2)

/-- CPython urlsplit's scheme step: split at the first ':' when the part
before it is a valid scheme (lower-cased), otherwise leave the URL whole. -/
def splitScheme (url : Str) : Str × Str :=
  match breakAt ':' url with
  | (pre, some rest) =>
    if validScheme pre then (pre.map Char.toLower, rest) else ([], url)
  | (_, none) => ([], url)

/-- Characters that terminate the netloc in CPython's _splitnetloc. -/
def netlocDelim (c : Char) : Bool :=
  c == '/' || c == '?' || c == '#'

/-- CPython _splitnetloc applied after the leading "//" has been removed. -/
def splitNetloc (s : Str) : Str × Str :=
  (s.takeWhile (fun c => !netlocDelim c), s.dropWhile (fun c => !netlocDelim c))

/-- Result of urlsplit: scheme, netloc, path, query, fragment. -/
structure SplitResult where
  scheme : Str
  netloc : Str
  path : Str
  query : Str
  fragment : Str
deriving Repr, DecidableEq

/-- CPython urllib.parse.urlsplit on ASCII input (the non-ASCII NFKC netloc
check never fires on ASCII and is omitted).  The unbalanced-bracket check
raises ValueError("Invalid IPv6 URL"), modelled as an error value. -/
def urlsplit (url : Str) : Except Str SplitResult :=
  let sr := splitScheme url
  let nr :=
    if "//".data.isPrefixOf sr.2 then splitNetloc (sr.2.drop 2) else ([], sr.2)
  if ('[' ∈ nr.1 ∧ ']' ∉ nr.1) ∨ (']' ∈ nr.1 ∧ '[' ∉ nr.1) then
    .error "Invalid IPv6 URL".data
  else
    let fr :=
      match breakAt '#' nr.2 with
      | (u, some f) => (u, f)
      | (u, none) => (u, ([] : Str))
    let qr :=
      match breakAt '?' fr.1 with
      | (u, some q) => (u, q)
      | (u, none) => (u, ([] : Str))
    .ok ⟨sr.1, nr.1, qr.1, qr.2, fr.2⟩

/-- Split a list at the last occurrence of a character, when there is one:
s = a ++ [c] ++ b with c not occurring in b. -/
def splitLast (c : Char) (s : Str) : Option (Str × Str) :=
  match breakAt c s.reverse with
  | (bRev, some aRev) => some (aRev.reverse, bRev.reverse)
  | (_, none) => none

/-- CPython _splitparams: split params off at the first ';' that lies in the
last path segment (after the last '/'), or anywhere when there is no '/'. -/
def splitParams (p : Str) : Str × Str :=
  match splitLast '/' p with
  | some (a, b) =>
    match breakAt ';' b with
    | (b1, some b2) => (a ++ '/' :: b1, b2)
    | (_, none) => (p, [])
  | none =>
    match breakAt ';' p with
    | (p1, some p2) => (p1, p2)
    | (_, none) => (p, [])

/-- Result of urlparse: scheme, netloc, path, params, query, fragment. -/
structure ParseResult where
  scheme : Str
  netloc : Str
  path : Str
  params : Str
  query : Str
  fragment : Str
deriving Repr, DecidableEq

/-- CPython urllib.parse.urlparse: urlsplit, then params split off the path. -/
def urlparse (url : Str) : Except Str ParseResult :=
  match urlsplit url with
  | .error e => .error e
  | .ok r =>
    let pp := if ';' ∈ r.path then splitParams r.path else (r.path, [])
    .ok ⟨r.scheme, r.netloc, pp.1, pp.2, r.query, r.fragment⟩

/-- CPython urllib.parse.urlunsplit. -/
def urlunsplit (scheme netloc url query fragment : Str) : Str :=
  let url1 :=
    if !netloc.isEmpty || "//".data.isPrefixOf url then
      "//".data ++ netloc ++
        (if !url.isEmpty && !("/".data.isPrefixOf url) then '/' :: url else url)
    else url
  let url2 := if !scheme.isEmpty then scheme ++ ':' :: url1 else url1
  let url3 := if !query.isEmpty then url2 ++ '?' :: query else url2
  if !fragment.isEmpty then url3 ++ '#' :: fragment else url3

/-- CPython urllib.parse.urlunparse: reattach params, then urlunsplit. -/
def urlunparse (r : ParseResult) : Str :=
  let u := if !r.params.isEmpty then r.path ++ ';' :: r.params else r.path
  urlunsplit r.scheme r.netloc u r.query r.fragment

/-- build_llms_url from src/llms_checker.py lines 37-44: parse the base URL,
rstrip '/' from its path, append "/llms.txt" (or use "/llms.txt" when the
stripped path is empty), and reassemble with the other components kept.
An exception raised by urlparse escapes as an error value. -/
def build_llms_url (base_url : Str) : Except Str Str :=
  match urlparse base_url with
  | .error e => .error e
  | .ok parsed =>
    let p0 := pyRstripSlash parsed.path
    let p1 := if !p0.isEmpty then p0 ++ "/llms.txt".data else "/llms.txt".data
    .ok (urlunparse { parsed with path := p1 })

/-- The result record of one domain check (dataclass DomainCheckResult,
src/llms_checker.py lines 11-17).  HTTP statuses are integers. -/
structure DomainCheckResult where
  domain : Str
  url_checked : Str
  has_llms_txt : Bool
  http_status : Option Int
  error : Option Str
deriving Repr, DecidableEq

/-- How the single urlopen call of a check turns out, abstracting the
network: a response object (getcode = status), an HTTPError carrying a
status and its str(e) text, a URLError carrying its str(e.reason) text,
or any other exception carrying its str(e) text. -/
inductive HttpOutcome where
  | response (status : Int)
  | httpError (status : Int) (msg : Str)
  | urlError (reasonMsg : Str)
  | otherExc (msg : Str)
deriving Repr, DecidableEq

/-- Consistency of an outcome with urllib's default opener: urlopen only
returns a response object for statuses in [200,300) — HTTPErrorProcessor
raises HTTPError for every other status — so the plain-response outcome
carries a success status. -/
def httpOutcomeConsistent : HttpOutcome → Prop
  | .response s => 200 ≤ s ∧ s < 300
  | _ => True

/-- check_single_domain from src/llms_checker.py lines 47-103.  The try
block starts only at the urlopen call, so an exception raised by
build_llms_url (urlparse) escapes the function; that is modelled by
propagating the error value. -/
def check_single_domain (domain : Str) (outcome : HttpOutcome) :
    Except Str DomainCheckResult :=
  if (normalize_domain domain).isEmpty then
    .ok ⟨domain, [], false, none, some "empty_domain".data⟩
  else
    match build_llms_url (normalize_domain domain) with
    | .error e => .error e
    | .ok llms_url =>
      match outcome with
      | .response s =>
        .ok ⟨domain, llms_url, decide (200 ≤ s ∧ s < 300), some s, none⟩
      | .httpError s msg =>
        .ok ⟨domain, llms_url, decide (200 ≤ s ∧ s < 300), some s,
             if 200 ≤ s ∧ s < 300 then none else some msg⟩
      | .urlError m => .ok ⟨domain, llms_url, false, none, some m⟩
      | .otherExc m => .ok ⟨domain, llms_url, false, none, some m⟩

/-- load_domains from src/llms_checker.py lines 106-118, over the file's
lines: strip each line, skip it when empty or starting with '#'. -/
def load_domains : List Str → List Str
  | [] => []
  | line :: rest =>
    let raw := pyStrip line
    if raw.isEmpty || "#".data.isPrefixOf raw then load_domains rest
    else raw :: load_domains rest

/-- Python dict(zip(fieldnames, row)).get(col) as DictReader builds it:
positional pairs first, then restval None for the fieldnames a short row
leaves uncovered; for a duplicated column name the last assignment wins. -/
def dictGet (fieldnames row : List Str) (col : Str) : Option Str :=
  let pairs := (fieldnames.zip row).map (fun kv => (kv.1, some kv.2)) ++
    (fieldnames.drop row.length).map (fun k => (k, (none : Option Str)))
  ((pairs.filter (fun kv => kv.1 = col)).getLast?.map (fun kv => kv.2)).getD none

/-- load_domains_from_csv from src/llms_checker.py lines 121-140, over the
already-parsed CSV records (csv.DictReader semantics: the first record is
the header, blank records are skipped, a missing cell reads as None).
When the column is absent the ValueError text is returned as an error. -/
def load_domains_from_csv (rows : List (List Str)) (col : Str) :
    Except Str (List Str) :=
  let fieldnames := rows.head?.getD []
  if col ∈ fieldnames then
    .ok ((rows.drop 1).filterMap (fun row =>
      if row.isEmpty then none
      else
        let raw := pyStrip ((dictGet fieldnames row col).getD [])
        if raw.isEmpty then none else some raw))
  else
    .error ("CSV file does not contain a '".data ++ col ++
      "' column. Available columns: ".data ++
      List.intercalate ", ".data fieldnames)

/-- Quoting of one field by csv.writer with the default dialect: a field
containing the delimiter, the quote character or a CR/LF is wrapped in
quotes with inner quotes doubled. -/
def csvField (f : Str) : Str :=
  if f.any (fun c => c == ',' || c == '"' || c == '\r' || c == '\n') then
    '"' :: f.foldr (fun c acc => if c = '"' then '"' :: '"' :: acc else c :: acc) ['"']
  else f

/-- One csv.writer row: quoted fields joined by ',' and terminated by the
default lineterminator CRLF. -/
def csvRow (fs : List Str) : Str :=
  List.intercalate ",".data (fs.map csvField) ++ "\r\n".data

/-- write_csv from src/llms_checker.py lines 143-160, as the full text it
writes: the header row, then one row per result with the domain and
yes/no from has_llms_txt. -/
def write_csv (results : List DomainCheckResult) : Str :=
  csvRow ["domain".data, "contains_llms_txt".data] ++
    results.foldr
      (fun r acc =>
        csvRow [r.domain, if r.has_llms_txt then "yes".data else "no".data] ++ acc)
      []

/-- The checking loop of main (src/llms_checker.py lines 252-255): one
check per domain in order, results collected in order; an exception
escaping a check aborts the whole run (there is no handler in main). -/
def runChecks : List Str → (Str → HttpOutcome) →
    Except Str (List DomainCheckResult)
  | [], _ => .ok []
  | d :: ds, oracle =>
    match check_single_domain d (oracle d) with
    | .error e => .error e
    | .ok r => (runChecks ds oracle).map (fun rs => r :: rs)

/-- Observable outcome of a run: the process exit code and the domains
that were actually handed to the checker (each one costs one network
request attempt). -/
structure RunResult where
  exitCode : Int
  checkedDomains : List Str
deriving Repr, DecidableEq

/-- The CSV-input path of main (src/llms_checker.py lines 233-255): load
the domains, exit 1 on a load error or when no domain was found — both
before any check runs — otherwise check every domain; an uncaught
exception from the loop also ends the process with a nonzero status. -/
def main_csv (rows : List (List Str)) (col : Str) (oracle : Str → HttpOutcome) :
    RunResult :=
  match load_domains_from_csv rows col with
  | .error _ => ⟨1, []⟩
  | .ok domains =>
    if domains.isEmpty then ⟨1, []⟩
    else
      match runChecks domains oracle with
      | .error _ => ⟨1, domains⟩
      | .ok _ => ⟨0, domains⟩

/-! Spec-side definitions.  These follow the wording of the specification
(amended where a counterexample forces it) and are deliberately written
with a different structure from the source translations above, so that
the equivalence theorems compare two independent formulations. -/

/-- Spec-side removal of every trailing '/': recursion from the front,
a character is dropped exactly when it is '/' and everything after it
was dropped. -/
def dropTrailingSlashesSpec : Str → Str
  | [] => []
  | c :: cs =>
    let r := dropTrailingSlashesSpec cs
    if r.isEmpty && c == '/' then [] else c :: r

/-- Spec-side normalization (the amended wording): trim; empty stays
empty; prepend "https://" exactly when no http/https scheme is present;
remove all trailing '/' characters. -/
def normalize_domain_spec (s : Str) : Str :=
  let t := pyStrip s
  if t.isEmpty then []
  else (if startsWithHttp t then [] else "https://".data) ++
    dropTrailingSlashesSpec t

/-- Spec-side description of the CSV rows: the header row followed by one
row per result holding the domain and yes/no. -/
def csv_rows_spec (rs : List DomainCheckResult) : List (List Str) :=
  ["domain".data, "contains_llms_txt".data] ::
    rs.map (fun r => [r.domain, if r.has_llms_txt then "yes".data else "no".data])

/-- Serialize a list of rows in order. -/
def render_rows (rows : List (List Str)) : Str :=
  rows.foldr (fun row acc => csvRow row ++ acc) []

/-- A fixed oracle for concrete runs: every request succeeds with 200. -/
def oracleOk : Str → HttpOutcome := fun _ => HttpOutcome.response 200

/-- The part of a URL after its path: the query component preceded by '?'
when one is present, then the fragment component preceded by '#' when one
is present. -/
def qfTail (q f : Option Str) : Str :=
  (match q with
   | some qs => '?' :: qs
   | none => []) ++
  (match f with
   | some fs => '#' :: fs
   | none => [])

/-! Helper lemmas. -/

theorem breakAt_of_not_mem {c : Char} {s : Str} (h : c ∉ s) :
    breakAt c s = (s, none) := by
  induction s with
  | nil => rfl
  | cons x xs ih =>
    have hxc : ¬ x = c := by
      intro he
      rw [he] at h
      exact h (List.mem_cons_self c xs)
    have hm : c ∉ xs := fun hm => h (List.mem_cons_of_mem _ hm)
    simp [breakAt, hxc, ih hm]

theorem breakAt_append {c : Char} {a : Str} (b : Str) (h : c ∉ a) :
    breakAt c (a ++ c :: b) = (a, some b) := by
  induction a with
  | nil => simp [breakAt]
  | cons x xs ih =>
    have hxc : ¬ x = c := by
      intro he
      rw [he] at h
      exact h (List.mem_cons_self c xs)
    have hm : c ∉ xs := fun hm => h (List.mem_cons_of_mem _ hm)
    simp [breakAt, hxc, ih hm]

theorem takeWhile_dropWhile_append {p : Char → Bool} {a : Str} (b : Str)
    (ha : ∀ c ∈ a, p c = true)
    (hb : ∀ x, b.head? = some x → p x = false) :
    (a ++ b).takeWhile p = a ∧ (a ++ b).dropWhile p = b := by
  induction a with
  | nil =>
    cases b with
    | nil => exact ⟨rfl, rfl⟩
    | cons x xs =>
      simp [List.takeWhile, List.dropWhile, hb x rfl]
  | cons y ys ih =>
    have hy : p y = true := ha y (List.mem_cons_self y ys)
    have := ih (fun c hc => ha c (List.mem_cons_of_mem _ hc))
    simp [List.takeWhile, List.dropWhile, hy, this.1, this.2]

theorem dropWhile_append_eq (p : Char → Bool) (a b : Str) :
    (a ++ b).dropWhile p =
      if (a.dropWhile p).isEmpty then b.dropWhile p else a.dropWhile p ++ b := by
  induction a with
  | nil => simp
  | cons x xs ih =>
    simp only [List.cons_append, List.dropWhile]
    cases hp : p x with
    | true => simpa using ih
    | false => simp

theorem dropTrailingSlashesSpec_eq (s : Str) :
    dropTrailingSlashesSpec s = pyRstripSlash s := by
  induction s with
  | nil => rfl
  | cons c cs ih =>
    simp only [dropTrailingSlashesSpec, ih]
    unfold pyRstripSlash
    rw [List.reverse_cons, dropWhile_append_eq]
    cases he : (cs.reverse.dropWhile (fun x => x == '/')).isEmpty with
    | true =>
      have hD : cs.reverse.dropWhile (fun x => x == '/') = [] :=
        List.isEmpty_iff.mp he
      rw [hD]
      cases hc : (c == '/') <;> simp [hc, List.dropWhile]
    | false =>
      have hD : cs.reverse.dropWhile (fun x => x == '/') ≠ [] := by
        intro h0
        rw [h0] at he
        simp at he
      have hre2 : ((cs.reverse.dropWhile (fun x => x == '/')).reverse).isEmpty = false := by
        simp [hD]
      simp [hre2, List.reverse_append]

theorem hash_isPrefixOf_head (t : Str) :
    "#".data.isPrefixOf t = (t.head? == some '#') := by
  cases t with
  | nil => rfl
  | cons c cs => simp [List.isPrefixOf, eq_comm]

theorem check_single_domain_domain_eq {d : Str} {o : HttpOutcome}
    {r : DomainCheckResult} (h : check_single_domain d o = .ok r) :
    r.domain = d := by
  unfold check_single_domain at h
  by_cases hbase : (normalize_domain d).isEmpty
  · rw [if_pos hbase] at h
    cases h
    rfl
  · rw [if_neg hbase] at h
    cases hb : build_llms_url (normalize_domain d) with
    | error e => rw [hb] at h; cases h
    | ok llms =>
      rw [hb] at h
      cases o with
      | response s => cases h; rfl
      | httpError s m => cases h; rfl
      | urlError m => cases h; rfl
      | otherExc m => cases h; rfl

theorem write_csv_eq_render (rs : List DomainCheckResult) :
    write_csv rs = render_rows (csv_rows_spec rs) := by
  simp only [write_csv, render_rows, csv_rows_spec, List.foldr_cons, List.foldr_map]

theorem pyRstripSlash_isPrefix (s : Str) : ∃ u, s = pyRstripSlash s ++ u := by
  refine ⟨(s.reverse.takeWhile (fun c => c == '/')).reverse, ?_⟩
  unfold pyRstripSlash
  conv_lhs =>
    rw [← List.reverse_reverse s,
      ← List.takeWhile_append_dropWhile (p := fun c => c == '/') (l := s.reverse)]
  rw [List.reverse_append]

theorem pyRstripSlash_slash_head (t : Str) :
    pyRstripSlash ('/' :: t) = [] ∨ ∃ u, pyRstripSlash ('/' :: t) = '/' :: u := by
  obtain ⟨u, hu⟩ := pyRstripSlash_isPrefix ('/' :: t)
  cases hps : pyRstripSlash ('/' :: t) with
  | nil => exact .inl rfl
  | cons x xs =>
    right
    rw [hps, List.cons_append] at hu
    injection hu with h1 h2
    exact ⟨xs, by rw [← h1]⟩

/-! Claim theorems. -/

/-- C1 (code_bug evaluation): check_single_domain does not always return a
result — for the domain "[" the normalized base URL "https://[" makes
urlparse raise ValueError("Invalid IPv6 URL") inside build_llms_url, which
is called before the try block starts, so the exception escapes and aborts
the whole run, contrary to the claim (and to the code's own catch-all
comment). -/
theorem check_single_domain_c1_crash :
    check_single_domain "[".data (HttpOutcome.response 200) =
      .error "Invalid IPv6 URL".data := rfl

/-- C3 (counterexample): normalize_domain does not strip exactly one
trailing '/' — on "example.com//" it strips both slashes, while the claim
demands that all but the last one be kept. -/
theorem normalize_domain_c3_counterexample :
    normalize_domain "example.com//".data = "https://example.com".data ∧
    normalize_domain "example.com//".data ≠ "https://example.com/".data :=
  ⟨rfl, by decide⟩

/-- C3 (amended): for every input, normalize_domain trims it, keeps an
existing http:// or https:// scheme or otherwise prepends https://, and
strips all trailing '/' characters. -/
theorem normalize_domain_spec_eq_c3 (s : Str) :
    normalize_domain s = normalize_domain_spec s := by
  simp only [normalize_domain, normalize_domain_spec, dropTrailingSlashesSpec_eq]
  split
  · rfl
  · split <;> simp

/-- C8: composing normalization and probe-URL construction maps
"example.com" to https://example.com/llms.txt and
"https://example.com/base/" to https://example.com/base/llms.txt. -/
theorem probe_url_examples_c8 :
    build_llms_url (normalize_domain "example.com".data) =
      .ok "https://example.com/llms.txt".data ∧
    build_llms_url (normalize_domain "https://example.com/base/".data) =
      .ok "https://example.com/base/llms.txt".data :=
  ⟨rfl, rfl⟩

/-- C9: the text loader returns exactly the trimmed lines that are
non-empty and do not start with '#', in file order, and on the example
lines ["# comment", "", "a.com", "b.com"] it loads ["a.com", "b.com"]. -/
theorem load_domains_filter_c9 :
    (∀ lines : List Str, load_domains lines =
      (lines.map pyStrip).filter
        (fun t => !t.isEmpty && !(t.head? == some '#'))) ∧
    load_domains ["# comment".data, "".data, "a.com".data, "b.com".data] =
      ["a.com".data, "b.com".data] := by
  constructor
  · intro lines
    induction lines with
    | nil => rfl
    | cons line rest ih =>
      rw [load_domains, List.map_cons, List.filter_cons, ih, hash_isPrefixOf_head]
      cases h1 : (pyStrip line).isEmpty <;>
        cases h2 : ((pyStrip line).head? == some '#') <;> simp [h1, h2]
  · rfl

/-- C4: every result check_single_domain produces has has_llms_txt true
exactly when http_status is present with a value in [200,300); in
particular a result with no status has has_llms_txt false. -/
theorem check_result_status_iff_c4 (domain : Str) (outcome : HttpOutcome)
    (r : DomainCheckResult) (h : check_single_domain domain outcome = .ok r) :
    r.has_llms_txt = true ↔ ∃ s, r.http_status = some s ∧ 200 ≤ s ∧ s < 300 := by
  unfold check_single_domain at h
  by_cases hbase : (normalize_domain domain).isEmpty
  · rw [if_pos hbase] at h
    cases h
    simp
  · rw [if_neg hbase] at h
    cases hb : build_llms_url (normalize_domain domain) with
    | error e => rw [hb] at h; cases h
    | ok llms =>
      rw [hb] at h
      cases outcome with
      | response s => cases h; simp
      | httpError s m => cases h; simp
      | urlError m => cases h; simp
      | otherExc m => cases h; simp

/-- C4 witness: a 204 response for example.com gives a result whose
has_llms_txt and http_status satisfy the equivalence. -/
theorem check_result_status_iff_c4_witness :
    ((⟨"example.com".data, "https://example.com/llms.txt".data, true,
        some 204, none⟩ : DomainCheckResult).has_llms_txt = true ↔
      ∃ s, (⟨"example.com".data, "https://example.com/llms.txt".data, true,
        some 204, none⟩ : DomainCheckResult).http_status = some s ∧
        200 ≤ s ∧ s < 300) :=
  check_result_status_iff_c4 "example.com".data (HttpOutcome.response 204) _ rfl

/-- C5: assuming urllib's behaviour that a plain response carries a
success status (HTTPErrorProcessor raises for every other status), a
result of check_single_domain has its error field present exactly when no
success status in [200,300) was obtained. -/
theorem check_result_error_iff_c5 (domain : Str) (outcome : HttpOutcome)
    (r : DomainCheckResult) (hc : httpOutcomeConsistent outcome)
    (h : check_single_domain domain outcome = .ok r) :
    r.error.isSome = true ↔ ¬ ∃ s, r.http_status = some s ∧ 200 ≤ s ∧ s < 300 := by
  unfold check_single_domain at h
  by_cases hbase : (normalize_domain domain).isEmpty
  · rw [if_pos hbase] at h
    cases h
    simp
  · rw [if_neg hbase] at h
    cases hb : build_llms_url (normalize_domain domain) with
    | error e => rw [hb] at h; cases h
    | ok llms =>
      rw [hb] at h
      cases outcome with
      | response s => cases h; simpa using hc
      | httpError s m =>
        cases h
        by_cases hs : 200 ≤ s ∧ s < 300 <;> simp [hs]
      | urlError m => cases h; simp
      | otherExc m => cases h; simp

/-- C5 witness: a network-level failure for example.com yields a result
with error present and no status. -/
theorem check_result_error_iff_c5_witness :
    ((⟨"example.com".data, "https://example.com/llms.txt".data, false,
        none, some "boom".data⟩ : DomainCheckResult).error.isSome = true ↔
      ¬ ∃ s, (⟨"example.com".data, "https://example.com/llms.txt".data, false,
        none, some "boom".data⟩ : DomainCheckResult).http_status = some s ∧
        200 ≤ s ∧ s < 300) :=
  check_result_error_iff_c5 "example.com".data
    (HttpOutcome.urlError "boom".data) _ trivial rfl

/-- Data rows of write_csv only read the domain and has_llms_txt fields. -/
theorem write_csv_rows_congr {rs1 rs2 : List DomainCheckResult}
    (h : List.Forall₂
      (fun a b => a.domain = b.domain ∧ a.has_llms_txt = b.has_llms_txt) rs1 rs2) :
    rs1.foldr
      (fun r acc =>
        csvRow [r.domain, if r.has_llms_txt then "yes".data else "no".data] ++ acc)
      [] =
    rs2.foldr
      (fun r acc =>
        csvRow [r.domain, if r.has_llms_txt then "yes".data else "no".data] ++ acc)
      [] := by
  induction h with
  | nil => rfl
  | cons hab hrest ih =>
    simp only [List.foldr_cons]
    rw [hab.1, hab.2, ih]

/-- C10: the CSV output depends only on the domain and has_llms_txt fields
of the results — two result lists agreeing pointwise on those two fields
serialize identically, whatever their url_checked, http_status and error
fields are, so the CSV cannot distinguish a non-success status from a
network-level failure. -/
theorem write_csv_noninterference_c10 (rs1 rs2 : List DomainCheckResult)
    (h : List.Forall₂
      (fun a b => a.domain = b.domain ∧ a.has_llms_txt = b.has_llms_txt) rs1 rs2) :
    write_csv rs1 = write_csv rs2 := by
  unfold write_csv
  rw [write_csv_rows_congr h]

/-- C6 (counterexample): with the usable domains ["a.com", "["] the
checking loop does not produce one result per domain — the ValueError
escaping check_single_domain on "[" aborts the run before any result list
(or CSV row) exists. -/
theorem runChecks_c6_counterexample :
    runChecks ["a.com".data, "[".data] oracleOk =
      .error "Invalid IPv6 URL".data := rfl

/-- C6 (amended): for every list of usable domains on which every check
returns a result (no exception escapes the probe-URL construction), the
pipeline produces exactly one CheckResult per input domain, in input
order, and the CSV output is the header row followed by one row per
result in that order, each row being the domain and yes/no from
has_llms_txt. -/
theorem pipeline_order_and_csv_c6 (domains : List Str)
    (oracle : Str → HttpOutcome)
    (h : ∀ d ∈ domains, ∃ r, check_single_domain d (oracle d) = .ok r) :
    ∃ rs, runChecks domains oracle = .ok rs ∧
      rs.map (fun r => r.domain) = domains ∧
      write_csv rs = render_rows (csv_rows_spec rs) := by
  induction domains with
  | nil => exact ⟨[], rfl, rfl, write_csv_eq_render []⟩
  | cons d ds ih =>
    obtain ⟨r, hr⟩ := h d (List.mem_cons_self d ds)
    obtain ⟨rs, hrs, hmap, _⟩ :=
      ih (fun d' hd' => h d' (List.mem_cons_of_mem _ hd'))
    refine ⟨r :: rs, ?_, ?_, write_csv_eq_render _⟩
    · simp only [runChecks, hr, hrs]
      rfl
    · rw [List.map_cons, hmap, check_single_domain_domain_eq hr]

/-- C6 witness: for the single domain example.com with a 200 response the
pipeline yields its one result, in order, with the matching CSV text. -/
theorem pipeline_order_and_csv_c6_witness :
    ∃ rs, runChecks ["example.com".data] oracleOk = .ok rs ∧
      rs.map (fun r => r.domain) = ["example.com".data] ∧
      write_csv rs = render_rows (csv_rows_spec rs) :=
  pipeline_order_and_csv_c6 ["example.com".data] oracleOk
    (by
      intro d hd
      rw [List.mem_singleton] at hd
      subst hd
      exact ⟨_, rfl⟩)

/-- C7: when the header row lacks the configured domain column, the CSV
loader fails with an error message naming the available columns, and the
run exits with status 1 having handed no domain to the checker, so no
network call is attempted. -/
theorem csv_missing_column_c7 (rows : List (List Str)) (col : Str)
    (oracle : Str → HttpOutcome) (h : col ∉ rows.head?.getD []) :
    (∃ msg, load_domains_from_csv rows col = .error msg ∧
      List.intercalate ", ".data (rows.head?.getD []) <:+ msg) ∧
    main_csv rows col oracle = ⟨1, []⟩ := by
  have hl : load_domains_from_csv rows col =
      .error ("CSV file does not contain a '".data ++ col ++
        "' column. Available columns: ".data ++
        List.intercalate ", ".data (rows.head?.getD [])) := by
    unfold load_domains_from_csv
    rw [if_neg h]
  refine ⟨⟨_, hl, List.suffix_append _ _⟩, ?_⟩
  unfold main_csv
  rw [hl]

/-- C7 witness: a CSV with header [name] probed for the default column
domain: the loader error ends with the available columns and the run
exits 1 without checking any domain. -/
theorem csv_missing_column_c7_witness :
    (∃ msg,
      load_domains_from_csv [["name".data], ["a.com".data]] "domain".data =
        .error msg ∧
      List.intercalate ", ".data
        ([["name".data], ["a.com".data]].head?.getD []) <:+ msg) ∧
    main_csv [["name".data], ["a.com".data]] "domain".data oracleOk = ⟨1, []⟩ :=
  csv_missing_column_c7 _ _ _ (by decide)

/-- The https URL prefix split at its scheme colon. -/
theorem https_prefix_eq (R : Str) :
    "https://".data ++ R = "https".data ++ ':' :: ('/' :: '/' :: R) := rfl

/-- splitScheme recognises the https scheme and keeps it lower-case. -/
theorem splitScheme_https (R : Str) :
    splitScheme ("https".data ++ ':' :: ('/' :: '/' :: R)) =
      ("https".data, '/' :: '/' :: R) := by
  unfold splitScheme
  rw [breakAt_append _ (by decide)]
  rfl

/-- urlsplit on an https URL whose netloc is free of delimiters and of
brackets, expressed through the two breakAt results on the part after the
netloc: absent components come out as the empty string. -/
theorem urlsplit_https_of_breaks (netloc B A path : Str) (fo qo : Option Str)
    (hnd : ∀ c ∈ netloc, netlocDelim c = false)
    (hbl : '[' ∉ netloc) (hbr : ']' ∉ netloc)
    (hhd : ∀ x, B.head? = some x → netlocDelim x = true)
    (hbrk1 : breakAt '#' B = (A, fo))
    (hbrk2 : breakAt '?' A = (path, qo)) :
    urlsplit ("https".data ++ ':' :: ('/' :: '/' :: (netloc ++ B))) =
      .ok ⟨"https".data, netloc, path, qo.getD [], fo.getD []⟩ := by
  have hnet := takeWhile_dropWhile_append (p := fun c => !netlocDelim c) B
    (a := netloc)
    (fun c hc => by
      show (!netlocDelim c) = true
      rw [hnd c hc]
      rfl)
    (fun x hx => by
      show (!netlocDelim x) = false
      rw [hhd x hx]
      rfl)
  have hsn : splitNetloc (netloc ++ B) = (netloc, B) := by
    unfold splitNetloc
    rw [hnet.1, hnet.2]
  have hscheme := splitScheme_https (netloc ++ B)
  cases fo <;> cases qo <;>
    (simp only [urlsplit, hscheme, List.isPrefixOf, beq_self_eq_true,
        Bool.true_and, List.drop_succ_cons, List.drop_zero, hsn, if_true];
      rw [if_neg (by simp [hbl, hbr])];
      simp only [if_true, hbrk1, hbrk2, Option.getD_none, Option.getD_some];
      try rfl)

/-- urlunparse on an https parse result with empty params and a '/'-led
path: the pieces are written back in order, with the '?' and the '#'
marker appearing exactly when the query respectively fragment component
is nonempty. -/
theorem urlunparse_https_opt (netloc p1 qv fv w : Str)
    (hn : netloc ≠ []) (hw : p1 = '/' :: w) :
    urlunparse ⟨"https".data, netloc, p1, [], qv, fv⟩ =
      "https://".data ++ (netloc ++
        ((p1 ++ (if qv.isEmpty then [] else '?' :: qv)) ++
          (if fv.isEmpty then [] else '#' :: fv))) := by
  subst hw
  cases netloc with
  | nil => exact absurd rfl hn
  | cons a nl =>
    cases qv <;> cases fv <;>
      (unfold urlunparse urlunsplit;
        simp [List.isPrefixOf, List.append_assoc])

/-- C2 (amended): for every well-formed https base URL containing a
query string and/or a fragment (host nonempty, free of netloc delimiters
and of brackets; path empty or starting with '/', free of '?', '#' and
';'; any present query nonempty and free of '#'; any present fragment
nonempty), the probe URL keeps the scheme, host and path and PRESERVES
whichever of the query and fragment are present, reattached after the
path extended with /llms.txt — they are not dropped. -/
theorem build_llms_url_keeps_query_fragment_c2
    (netloc path : Str) (q f : Option Str)
    (hn : netloc ≠ [])
    (hnd : ∀ c ∈ netloc, netlocDelim c = false)
    (hbl : '[' ∉ netloc) (hbr : ']' ∉ netloc)
    (hp : ∀ c ∈ path, c ≠ '?' ∧ c ≠ '#' ∧ c ≠ ';')
    (hph : path = [] ∨ ∃ t, path = '/' :: t)
    (hor : q.isSome ∨ f.isSome)
    (hq : ∀ qs, q = some qs → qs ≠ [] ∧ '#' ∉ qs)
    (hf : ∀ fs, f = some fs → fs ≠ []) :
    build_llms_url ("https://".data ++ (netloc ++ (path ++ qfTail q f))) =
      .ok ("https://".data ++ (netloc ++
        ((if (pyRstripSlash path).isEmpty then "/llms.txt".data
          else pyRstripSlash path ++ "/llms.txt".data) ++ qfTail q f))) := by
  have hsem : ¬ (';' ∈ path) := fun hm => (hp _ hm).2.2 rfl
  have hnq : ¬ ('?' ∈ path) := fun hm => (hp _ hm).1 rfl
  have hnh : ¬ ('#' ∈ path) := fun hm => (hp _ hm).2.1 rfl
  obtain ⟨w, hw⟩ : ∃ w, (if (pyRstripSlash path).isEmpty then "/llms.txt".data
      else pyRstripSlash path ++ "/llms.txt".data) = '/' :: w := by
    cases hpe : (pyRstripSlash path).isEmpty with
    | true => exact ⟨"llms.txt".data, rfl⟩
    | false =>
      rcases hph with hpnil | ⟨t, ht⟩
      · rw [hpnil] at hpe
        exact absurd hpe (by decide)
      · subst ht
        rcases pyRstripSlash_slash_head t with h0 | ⟨u, hu⟩
        · rw [h0] at hpe
          cases hpe
        · exact ⟨u ++ "/llms.txt".data, by rw [hu]; rfl⟩
  have hiff : (if !(pyRstripSlash path).isEmpty then
        pyRstripSlash path ++ "/llms.txt".data else "/llms.txt".data) =
      (if (pyRstripSlash path).isEmpty then "/llms.txt".data
        else pyRstripSlash path ++ "/llms.txt".data) := by
    cases hpe2 : (pyRstripSlash path).isEmpty <;> rfl
  cases q with
  | none =>
    cases f with
    | none => simp at hor
    | some fs =>
      have hfe : fs.isEmpty = false := by
        cases hfs : fs with
        | nil => exact absurd hfs (hf fs rfl)
        | cons f0 fl => rfl
      simp only [qfTail, List.nil_append]
      have hhd : ∀ x, (path ++ '#' :: fs).head? = some x →
          netlocDelim x = true := by
        rcases hph with hpe | ⟨t, ht⟩
        · subst hpe
          intro x hx
          simp only [List.nil_append, List.head?_cons] at hx
          cases hx
          rfl
        · subst ht
          intro x hx
          simp only [List.cons_append, List.head?_cons] at hx
          cases hx
          rfl
      have hbrk1 : breakAt '#' (path ++ '#' :: fs) = (path, some fs) :=
        breakAt_append _ hnh
      have hbrk2 : breakAt '?' path = (path, none) :=
        breakAt_of_not_mem hnq
      have hsplit := urlsplit_https_of_breaks netloc (path ++ '#' :: fs)
        path path (some fs) none hnd hbl hbr hhd hbrk1 hbrk2
      have hparse : urlparse ("https".data ++ ':' :: ('/' :: '/' ::
          (netloc ++ (path ++ '#' :: fs)))) =
          .ok ⟨"https".data, netloc, path, [], [], fs⟩ := by
        unfold urlparse
        rw [hsplit]
        simp [hsem]
      have hbuild : build_llms_url ("https".data ++ ':' :: ('/' :: '/' ::
          (netloc ++ (path ++ '#' :: fs)))) =
          .ok (urlunparse ⟨"https".data, netloc,
            (if (pyRstripSlash path).isEmpty then "/llms.txt".data
              else pyRstripSlash path ++ "/llms.txt".data), [], [], fs⟩) := by
        simp only [build_llms_url, hparse]
        rw [hiff]
      have hfinal := urlunparse_https_opt netloc _ [] fs w hn hw
      simp only [List.isEmpty_nil, hfe, if_true, if_false,
        List.append_nil] at hfinal
      exact hbuild.trans (congrArg Except.ok hfinal)
  | some qs =>
    obtain ⟨hqs, hqh⟩ := hq qs rfl
    have hqe : qs.isEmpty = false := by
      cases hqsc : qs with
      | nil => exact absurd hqsc hqs
      | cons q0 ql => rfl
    cases f with
    | none =>
      simp only [qfTail, List.append_nil]
      have hhd : ∀ x, (path ++ '?' :: qs).head? = some x →
          netlocDelim x = true := by
        rcases hph with hpe | ⟨t, ht⟩
        · subst hpe
          intro x hx
          simp only [List.nil_append, List.head?_cons] at hx
          cases hx
          rfl
        · subst ht
          intro x hx
          simp only [List.cons_append, List.head?_cons] at hx
          cases hx
          rfl
      have hbrk1 : breakAt '#' (path ++ '?' :: qs) =
          (path ++ '?' :: qs, none) :=
        breakAt_of_not_mem (by
          intro hmem
          rcases List.mem_append.mp hmem with hm | hm
          · exact hnh hm
          · rcases List.mem_cons.mp hm with he | hm2
            · exact absurd he (by decide)
            · exact hqh hm2)
      have hbrk2 : breakAt '?' (path ++ '?' :: qs) = (path, some qs) :=
        breakAt_append _ hnq
      have hsplit := urlsplit_https_of_breaks netloc (path ++ '?' :: qs)
        (path ++ '?' :: qs) path none (some qs) hnd hbl hbr hhd hbrk1 hbrk2
      have hparse : urlparse ("https".data ++ ':' :: ('/' :: '/' ::
          (netloc ++ (path ++ '?' :: qs)))) =
          .ok ⟨"https".data, netloc, path, [], qs, []⟩ := by
        unfold urlparse
        rw [hsplit]
        simp [hsem]
      have hbuild : build_llms_url ("https".data ++ ':' :: ('/' :: '/' ::
          (netloc ++ (path ++ '?' :: qs)))) =
          .ok (urlunparse ⟨"https".data, netloc,
            (if (pyRstripSlash path).isEmpty then "/llms.txt".data
              else pyRstripSlash path ++ "/llms.txt".data), [], qs, []⟩) := by
        simp only [build_llms_url, hparse]
        rw [hiff]
      have hfinal := urlunparse_https_opt netloc _ qs [] w hn hw
      simp only [List.isEmpty_nil, hqe, if_true, if_false,
        List.append_nil] at hfinal
      exact hbuild.trans (congrArg Except.ok hfinal)
    | some fs =>
      have hfe : fs.isEmpty = false := by
        cases hfs : fs with
        | nil => exact absurd hfs (hf fs rfl)
        | cons f0 fl => rfl
      simp only [qfTail]
      have hhd : ∀ x, (path ++ (('?' :: qs) ++ ('#' :: fs))).head? = some x →
          netlocDelim x = true := by
        rcases hph with hpe | ⟨t, ht⟩
        · subst hpe
          intro x hx
          simp only [List.nil_append, List.cons_append, List.head?_cons] at hx
          cases hx
          rfl
        · subst ht
          intro x hx
          simp only [List.cons_append, List.head?_cons] at hx
          cases hx
          rfl
      have hbrk1 : breakAt '#' (path ++ (('?' :: qs) ++ ('#' :: fs))) =
          (path ++ '?' :: qs, some fs) := by
        rw [← List.append_assoc]
        exact breakAt_append _ (by
          intro hmem
          rcases List.mem_append.mp hmem with hm | hm
          · exact hnh hm
          · rcases List.mem_cons.mp hm with he | hm2
            · exact absurd he (by decide)
            · exact hqh hm2)
      have hbrk2 : breakAt '?' (path ++ '?' :: qs) = (path, some qs) :=
        breakAt_append _ hnq
      have hsplit := urlsplit_https_of_breaks netloc
        (path ++ (('?' :: qs) ++ ('#' :: fs)))
        (path ++ '?' :: qs) path (some fs) (some qs) hnd hbl hbr hhd hbrk1 hbrk2
      have hparse : urlparse ("https".data ++ ':' :: ('/' :: '/' ::
          (netloc ++ (path ++ (('?' :: qs) ++ ('#' :: fs)))))) =
          .ok ⟨"https".data, netloc, path, [], qs, fs⟩ := by
        unfold urlparse
        rw [hsplit]
        simp [hsem]
      have hbuild : build_llms_url ("https".data ++ ':' :: ('/' :: '/' ::
          (netloc ++ (path ++ (('?' :: qs) ++ ('#' :: fs)))))) =
          .ok (urlunparse ⟨"https".data, netloc,
            (if (pyRstripSlash path).isEmpty then "/llms.txt".data
              else pyRstripSlash path ++ "/llms.txt".data), [], qs, fs⟩) := by
        simp only [build_llms_url, hparse]
        rw [hiff]
      have hfinal := urlunparse_https_opt netloc _ qs fs w hn hw
      simp only [hqe, hfe, if_false] at hfinal
      rw [List.append_assoc] at hfinal
      exact hbuild.trans (congrArg Except.ok hfinal)

/-- C2 witness: for the query-only base URL https://example.com/a?x=1 the
probe URL keeps the query x=1 after the extended path. -/
theorem build_llms_url_keeps_query_fragment_c2_witness :
    ("example.com".data ≠ [] ∧ "x=1".data ≠ []) ∧
    build_llms_url "https://example.com/a?x=1".data =
      .ok "https://example.com/a/llms.txt?x=1".data :=
  ⟨⟨by decide, by decide⟩,
    build_llms_url_keeps_query_fragment_c2 "example.com".data "/a".data
      (some "x=1".data) none (by decide) (by decide) (by decide) (by decide)
      (by decide) (.inr ⟨"a".data, rfl⟩) (.inl rfl)
      (fun qs hqs => by
        cases hqs
        exact ⟨by decide, by decide⟩)
      (fun fs hfs => by cases hfs)⟩

/-- C2 (counterexample): build_llms_url does not drop the query string —
on https://example.com/a?x=1 the probe URL keeps ?x=1 after the extended
path, so it differs from the query-free URL the claim demands. -/
theorem build_llms_url_c2_counterexample :
    build_llms_url "https://example.com/a?x=1".data =
      .ok "https://example.com/a/llms.txt?x=1".data ∧
    "https://example.com/a/llms.txt?x=1".data ≠
      "https://example.com/a/llms.txt".data :=
  ⟨rfl, by decide⟩

/-- C10 witness: a 404 result and a no-response result for the same domain
produce the same CSV text. -/
theorem write_csv_noninterference_c10_witness :
    write_csv [⟨"a.com".data, "https://a.com/llms.txt".data, false, some 404,
      some "HTTP Error 404: Not Found".data⟩] =
    write_csv [⟨"a.com".data, [], false, none, none⟩] :=
  write_csv_noninterference_c10 _ _
    (List.Forall₂.cons ⟨rfl, rfl⟩ List.Forall₂.nil)

end LlmsChecker
